import Mathlib

/-!
Shallow embedding of `doc_price_alert.py` (DOC price alert script) and proofs
about its reconciliation engine, row evaluation, aggregation and formatting.

Modelling conventions:
* Sheet cells are `String`; a sheet is a `List (List String)` (row 0 = header).
* Python `float` values are modelled by `ℚ` (idealized exact arithmetic; the
  claims under study never depend on binary rounding of IEEE doubles).
* String manipulation (stripping, joining, splitting, case folding) is
  implemented over the character list of the string so that every definition
  evaluates by kernel reduction; `strip` embeds Python `str.strip()`.
* `parse_price` embeds `float(cleaned)` for the decimal forms that occur in
  price cells (optional sign, digits, at most one decimal point); exotic float
  syntax (exponents, inf/nan, underscores) is outside the modelled grammar.
* The MD5 hex digest of `compute_row_hash` is modelled by its pre-image string
  (the `'|'`-joined stripped first 24 cells): MD5 is a deterministic function
  of that string and is treated as collision-free for equality comparison.
* External effects (sheet fetch, webhook delivery, sleeping) are passed in as
  explicit parameters: `fetch : ℕ → Option data` gives the data fetched on each
  attempt (`none` = the fetch raised), `deliver : card → Bool` tells whether
  `send_webhook_with_retry` returns `True` for a payload.
-/

attribute [local semireducible] Rat.add Rat.mul Rat.inv Rat.sub Rat.ofScientific

/-- Drop leading and trailing whitespace from a character list. -/
def stripChars (cs : List Char) : List Char :=
  ((cs.dropWhile Char.isWhitespace).reverse.dropWhile Char.isWhitespace).reverse

/-- Embeds Python `str.strip()`: remove leading and trailing whitespace. -/
def strip (s : String) : String :=
  String.mk (stripChars s.data)

/-- Lower-case every character (embeds `str.lower()` for ASCII content). -/
def lowerStr (s : String) : String :=
  String.mk (s.data.map Char.toLower)

/-- Split a character list at every occurrence of the separator character. -/
def splitOnCharAux (c : Char) (acc : List Char) : List Char → List (List Char)
  | [] => [acc.reverse]
  | x :: xs =>
    if x == c then acc.reverse :: splitOnCharAux c [] xs
    else splitOnCharAux c (x :: acc) xs

/-- Embeds `str.split` / `String.splitOn` for a one-character separator. -/
def splitOnChar (c : Char) (s : String) : List String :=
  (splitOnCharAux c [] s.data).map String.mk

/-- Digits of a numeral, most significant first, folded to a natural number. -/
def digitsToNat (cs : List Char) : ℕ :=
  cs.foldl (fun n c => 10 * n + (c.toNat - 48)) 0

/-- Embeds Python `float(s)` on the modelled grammar: optional sign, then
digits with at most one decimal point, at least one digit overall.
Returns `none` on anything else (Python raises `ValueError`). -/
def pyFloat? (s : String) : Option ℚ :=
  let cs := s.data
  let sgnNeg : Bool := match cs with
    | '-' :: _ => true
    | _ => false
  let rest : List Char := match cs with
    | '-' :: r => r
    | '+' :: r => r
    | r => r
  let intPart := rest.takeWhile (fun c => c ≠ '.')
  let dotPart := rest.dropWhile (fun c => c ≠ '.')
  let fracPart : List Char := match dotPart with
    | [] => []
    | _ :: fp => fp
  if intPart.all Char.isDigit ∧ fracPart.all Char.isDigit ∧
      (intPart ≠ [] ∨ fracPart ≠ []) then
    let v : ℚ := (digitsToNat intPart : ℚ) +
      (digitsToNat fracPart : ℚ) / ((10 : ℚ) ^ fracPart.length)
    some (if sgnNeg then -v else v)
  else none

/-- Embeds Python `int(s)` on the modelled grammar: optional surrounding
whitespace, optional sign, nonempty digit string. -/
def pyInt? (s : String) : Option ℤ :=
  let cs := stripChars s.data
  let sgnNeg : Bool := match cs with
    | '-' :: _ => true
    | _ => false
  let rest : List Char := match cs with
    | '-' :: r => r
    | '+' :: r => r
    | r => r
  if rest ≠ [] ∧ rest.all Char.isDigit then
    let v : ℤ := (digitsToNat rest : ℤ)
    some (if sgnNeg then -v else v)
  else none

/-- Embeds the cleaning step of `parse_price` / `format_price` (lines 171,
181): `value.replace(',', '').replace(' ', '').strip()` — every comma and
space character is removed, then remaining edge whitespace stripped. -/
def cleanPrice (s : String) : String :=
  String.mk (stripChars (s.data.filter (fun c => !(c == ',') && !(c == ' '))))

/-- Embeds `parse_price` (lines 167-174): clean, then attempt float
conversion; any failure yields `none` (Python returns `None`). -/
def parse_price (s : String) : Option ℚ :=
  pyFloat? (cleanPrice s)

/-- Floor of a rational as an integer (used by the rounding model below). -/
def ratFloor (q : ℚ) : ℤ :=
  Int.fdiv q.num (q.den : ℤ)

/-- Round to nearest integer, ties to even: the rounding used by Python's
fixed-point formatting `f"{x:,.0f}"`. -/
def roundHalfEven (q : ℚ) : ℤ :=
  let f := ratFloor q
  let frac : ℚ := q - (f : ℚ)
  if frac < 1/2 then f
  else if 1/2 < frac then f + 1
  else if f % 2 = 0 then f else f + 1

/-- Insert a comma after every third character, scanning a reversed digit
list (helper for the thousands-separator format). -/
def insertCommasRev : List Char → List Char
  | c1 :: c2 :: c3 :: c4 :: rest => c1 :: c2 :: c3 :: ',' :: insertCommasRev (c4 :: rest)
  | l => l

/-- Group the digits of a numeral string with thousands separators. -/
def groupThousands (s : String) : String :=
  String.mk (insertCommasRev s.data.reverse).reverse

/-- Embeds the Python format `f"{q:,.0f}"` on the rational model: round half
to even, thousands separators, no decimals; a negative value rounding to zero
renders as "-0" exactly as CPython does. -/
def pyFormatFloat0 (q : ℚ) : String :=
  let n := roundHalfEven q
  let body := groupThousands (Nat.repr n.natAbs)
  if n < 0 ∨ (n = 0 ∧ q < 0) then "-" ++ body else body

/-- Embeds `format_price` (lines 177-186): parse the cleaned value and format
with separators; return the original string unchanged if parsing fails. -/
def format_price (value : String) : String :=
  match pyFloat? (cleanPrice value) with
  | some q => pyFormatFloat0 q
  | none => value

/-- Embeds the `SUPPLIERS` constant (lines 23-28): the 23 category columns. -/
def SUPPLIERS : List String :=
  ["AGRITED", "AGRICARE", "CHI", "OROBOR", "FARM SUPPORT", "ZARTECH",
   "FIDAN", "EMINENT", "SAYED", "AMO", "GS", "SUPREME", "BOUNTY HARVEST",
   "CASCADA", "DADDY\x27S FARMS", "AJILA", "DAMAS", "YAMMFY", "VALENTINE",
   "TUNS", "CALIBER", "CHIKUN", "VERTEX"]

/-- Embeds `PREDICTED_MONTHLY_PRICES` (lines 37-50). -/
def PREDICTED_MONTHLY_PRICES : List (ℕ × ℚ) :=
  [(1, 1569), (2, 1713), (3, 850), (4, 1177), (5, 727), (6, 802),
   (7, 938), (8, 1414), (9, 1897), (10, 2212), (11, 1926), (12, 843)]

/-- Cell access as the Python loop sees it: `row[i].strip()` when `i` is in
range, `""` otherwise (line 160); `true` iff the stripped cell is blank. -/
def cell_blank (row : List String) (i : ℕ) : Bool :=
  strip ((row.get? i).getD "") == ""

/-- Embeds `is_row_complete` (lines 153-164): at least 24 cells, and each of
the first 24 cells is non-blank after stripping. -/
def is_row_complete (row : List String) : Bool :=
  if row.length < 24 then false
  else (List.range 24).all (fun i => !(strip ((row.get? i).getD "") == ""))

/-- Embeds the predicate of `get_latest_row_with_date` (line 210):
`row and len(row) > 0 and row[0].strip()`. -/
def has_date (row : List String) : Bool :=
  match row with
  | [] => false
  | c :: _ => !(strip c == "")

/-- Embeds `is_row_incomplete_but_started` (lines 216-226): a date is present
but the row is not complete. -/
def is_row_incomplete_but_started (row : List String) : Bool :=
  match row with
  | [] => false
  | c :: _ => if strip c == "" then false else !(is_row_complete row)

/-- Row classification (spec §4.2 `classify`), combining the source
predicates: Complete per `is_row_complete`, InProgress per
`is_row_incomplete_but_started`, Empty otherwise. -/
inductive RowClass
  | Empty
  | InProgress
  | Complete
deriving DecidableEq, Repr

/-- The classification function assembled from the two source predicates. -/
def classify (row : List String) : RowClass :=
  if is_row_complete row then RowClass.Complete
  else if is_row_incomplete_but_started row then RowClass.InProgress
  else RowClass.Empty

/-- Embeds `compute_row_hash` (lines 116-120). The Python code takes the MD5
hex digest of `row_data = '|'.join(str(cell).strip() for cell in row[:24])`;
MD5 being a deterministic function of `row_data`, the fingerprint is modelled
by `row_data` itself, treating the digest as collision-free under equality. -/
def compute_row_hash (row : List String) : String :=
  String.mk (List.intercalate ['|'] ((row.take 24).map (fun s => stripChars s.data)))

/-- Backward scan shared by `get_latest_complete_row` (lines 189-199) and
`get_latest_row_with_date` (lines 202-213): both run
`for i in range(len(data) - 1, 0, -1)` returning the first matching row; the
two loops differ only in the predicate tested. -/
def scan_back (pred : List String → Bool) (data : List (List String)) :
    ℕ → Option (ℕ × List String)
  | 0 => none
  | i + 1 =>
    match data.get? (i + 1) with
    | some row => if pred row then some (i + 1, row) else scan_back pred data i
    | none => scan_back pred data i

/-- Embeds `get_latest_complete_row` (lines 189-199). -/
def get_latest_complete_row (data : List (List String)) : Option (ℕ × List String) :=
  if data.length ≤ 1 then none
  else scan_back is_row_complete data (data.length - 1)

/-- Embeds `get_latest_row_with_date` (lines 202-213). -/
def get_latest_row_with_date (data : List (List String)) : Option (ℕ × List String) :=
  if data.length ≤ 1 then none
  else scan_back has_date data (data.length - 1)

/-- The successfully parsed prices among the category cells, in order: the
list built by the loop of `calculate_daily_average` (lines 231-237),
`for i in range(1, min(len(row), 24))`. -/
def parsedPrices (row : List String) : List ℚ :=
  (List.range' 1 (min row.length 24 - 1)).filterMap
    (fun i => parse_price ((row.get? i).getD ""))

/-- Embeds `calculate_daily_average` (lines 229-242): `None` when no price
parses, otherwise the mean of the parsed prices. -/
def calculate_daily_average (row : List String) : Option ℚ :=
  let prices := parsedPrices row
  if prices = [] then none
  else some (prices.sum / (prices.length : ℚ))

/-- Month abbreviations as matched case-insensitively by `strptime`'s `%b`. -/
def MONTH_ABBREVS : List String :=
  ["jan", "feb", "mar", "apr", "may", "jun",
   "jul", "aug", "sep", "oct", "nov", "dec"]

/-- Match a `%b` token: case-insensitive month abbreviation, 1-based month. -/
def parse_month_abbrev (s : String) : Option ℕ :=
  match MONTH_ABBREVS.findIdx? (fun m => m == lowerStr s) with
  | some i => some (i + 1)
  | none => none

/-- Gregorian leap-year rule used by Python's `datetime` validation. -/
def is_leap (y : ℤ) : Bool :=
  y % 4 == 0 && (y % 100 != 0 || y % 400 == 0)

/-- Days in a calendar month, for `strptime` day-of-month validation. -/
def days_in_month (y : ℤ) (m : ℕ) : ℕ :=
  if m = 2 then (if is_leap y then 29 else 28)
  else if m = 4 ∨ m = 6 ∨ m = 9 ∨ m = 11 then 30
  else 31

/-- A digit run of bounded length, as `strptime` numeric directives match. -/
def parse_nat_digits (s : String) (minLen maxLen : ℕ) : Option ℕ :=
  let cs := s.data
  if cs.all Char.isDigit ∧ minLen ≤ cs.length ∧ cs.length ≤ maxLen
  then some (digitsToNat cs) else none

/-- Date validity per `datetime`: year 1..9999, month 1..12, day in range. -/
def valid_ymd (y : ℤ) (m d : ℕ) : Bool :=
  1 ≤ y && y ≤ 9999 && 1 ≤ m && m ≤ 12 && 1 ≤ d && d ≤ days_in_month y m

/-- Embeds `strptime(s, '%d-%b-%Y')` on the modelled grammar. -/
def parse_d_b_Y (s : String) : Option (ℤ × ℕ × ℕ) :=
  match splitOnChar '-' s with
  | [ds, bs, ys] => do
    let d ← parse_nat_digits ds 1 2
    let m ← parse_month_abbrev bs
    let y ← parse_nat_digits ys 1 4
    if valid_ymd (y : ℤ) m d then some ((y : ℤ), m, d) else none
  | _ => none

/-- Embeds `strptime(s, '%Y-%m-%d')` on the modelled grammar. -/
def parse_Y_m_d (s : String) : Option (ℤ × ℕ × ℕ) :=
  match splitOnChar '-' s with
  | [ys, ms, ds] => do
    let y ← parse_nat_digits ys 1 4
    let m ← parse_nat_digits ms 1 2
    let d ← parse_nat_digits ds 1 2
    if valid_ymd (y : ℤ) m d then some ((y : ℤ), m, d) else none
  | _ => none

/-- Embeds `strptime(s, '%d/%m/%Y')` on the modelled grammar. -/
def parse_d_m_Y (s : String) : Option (ℤ × ℕ × ℕ) :=
  match splitOnChar '/' s with
  | [ds, ms, ys] => do
    let d ← parse_nat_digits ds 1 2
    let m ← parse_nat_digits ms 1 2
    let y ← parse_nat_digits ys 1 4
    if valid_ymd (y : ℤ) m d then some ((y : ℤ), m, d) else none
  | _ => none

/-- Embeds `strptime(s, '%m/%d/%Y')` on the modelled grammar. -/
def parse_m_d_Y (s : String) : Option (ℤ × ℕ × ℕ) :=
  match splitOnChar '/' s with
  | [ms, ds, ys] => do
    let m ← parse_nat_digits ms 1 2
    let d ← parse_nat_digits ds 1 2
    let y ← parse_nat_digits ys 1 4
    if valid_ymd (y : ℤ) m d then some ((y : ℤ), m, d) else none
  | _ => none

/-- Embeds the format-trying loop of `get_month_data` (lines 258-263): the
first of the four formats that parses wins; `none` if all fail. -/
def parse_date_any (s : String) : Option (ℤ × ℕ × ℕ) :=
  (parse_d_b_Y s).orElse (fun _ => (parse_Y_m_d s).orElse (fun _ =>
    (parse_d_m_Y s).orElse (fun _ => parse_m_d_Y s)))

/-- Embeds `get_month_data` (lines 245-271): keep the Complete rows after the
header whose date cell parses to the target (year, month); rows with a falsy
(empty) first cell or an unparseable date are skipped. -/
def get_month_data (data : List (List String)) (year : ℤ) (month : ℕ) :
    List (List String) :=
  (data.drop 1).filter (fun row =>
    match row with
    | [] => false
    | c :: _ =>
      if c = "" then false
      else match parse_date_any (strip c) with
        | some (y, m, _) => y == year && m == month && is_row_complete row
        | none => false)

/-- Embeds `calculate_monthly_averages` (lines 274-294): for each supplier, in
`SUPPLIERS` order, the mean of the parseable prices in its column across the
month's rows; a supplier with no parseable price is omitted from the mapping. -/
def calculate_monthly_averages (month_data : List (List String)) :
    List (String × ℚ) :=
  if month_data = [] then []
  else SUPPLIERS.enum.filterMap (fun p =>
    let prices := month_data.filterMap (fun row =>
      if p.1 + 1 < row.length then parse_price ((row.get? (p.1 + 1)).getD "")
      else none)
    if prices = [] then none
    else some (p.2, prices.sum / (prices.length : ℚ)))

/-- One `decoratedText` widget of a card: its label and its text. -/
structure Widget where
  topLabel : String
  text : String
deriving DecidableEq, Repr

/-- The semantic content of the daily card built by `format_daily_card`
(lines 303-357). The WAT wall-clock timestamp in the subtitle is an external
clock reading and is not modelled. -/
structure DailyCard where
  title : String
  dateStr : String
  supplierWidgets : List Widget
  dailyAvg : ℚ
deriving DecidableEq, Repr

/-- Embeds `format_daily_card` (lines 303-357): title distinguishes update
from new entry; one widget per supplier with the formatted cell (literal
"N/A" for cells beyond the row's length); the daily average in the summary. -/
def format_daily_card (date_str : String) (row : List String) (daily_avg : ℚ)
    (is_update : Bool) : DailyCard :=
  { title := if is_update then "DOC Price Update" else "DOC Price Alert"
    dateStr := date_str
    supplierWidgets := SUPPLIERS.enum.map (fun p =>
      let price_raw := if p.1 + 1 < row.length then (row.get? (p.1 + 1)).getD "" else "N/A"
      { topLabel := p.2
        text := if price_raw == "N/A" then "N/A" else format_price price_raw })
    dailyAvg := daily_avg }

/-- The semantic content of the monthly card built by `format_monthly_card`
(lines 360-448); the WAT timestamp is not modelled. -/
structure MonthlyCard where
  monthName : String
  year : ℤ
  supplierWidgets : List Widget
  overallAvg : ℚ
  predicted : ℚ
  diffText : String
  favorable : Bool
  daysCount : ℕ
deriving DecidableEq, Repr

/-- Embeds `format_monthly_card` (lines 360-448). Note line 367:
`avg_text = f"{avg:,.0f}" if avg else "N/A"` uses Python truthiness, so both a
missing supplier (`None`) and a present average equal to `0.0` render "N/A". -/
def format_monthly_card (month_name : String) (year : ℤ) (month_num : ℕ)
    (averages : List (String × ℚ)) (days_count : ℕ) : MonthlyCard :=
  let valid_avgs := averages.map Prod.snd
  let overall_avg : ℚ :=
    if valid_avgs = [] then 0 else valid_avgs.sum / (valid_avgs.length : ℚ)
  let predicted : ℚ := (PREDICTED_MONTHLY_PRICES.lookup month_num).getD 0
  let difference := overall_avg - predicted
  { monthName := month_name
    year := year
    supplierWidgets := SUPPLIERS.map (fun supplier =>
      { topLabel := supplier
        text := match averages.lookup supplier with
          | some a => if a = 0 then "N/A" else pyFormatFloat0 a
          | none => "N/A" })
    overallAvg := overall_avg
    predicted := predicted
    diffText := (if 0 ≤ difference then "+" else "") ++ pyFormatFloat0 difference
    favorable := difference < 0
    daysCount := days_count }

/-- The persisted state record (spec PersistedState; `load_state` defaults
`{"last_processed_row": 0, "last_row_hash": None, "last_monthly_alert": None}`,
lines 125-129). -/
structure AlertState where
  last_processed_row : ℕ
  last_row_hash : Option String
  last_monthly_alert : Option String
deriving DecidableEq, Repr

/-- A daily alert dispatch: the payload handed to `send_webhook_with_retry`,
whether it was a correction (`is_update`), the row it covers, and whether
delivery succeeded. -/
structure DailyAlert where
  is_update : Bool
  index : ℕ
  hash : String
  card : DailyCard
  delivered : Bool
deriving DecidableEq, Repr

/-- Embeds the `is_incomplete_new_row` test of `check_and_process_daily_data`
(lines 541-545): the latest dated row sits strictly past the persisted index
and is started but incomplete. -/
def incomplete_new_gate (data : List (List String)) (L : ℕ) : Bool :=
  match get_latest_row_with_date data with
  | some (ai, arow) => decide (L < ai) && is_row_incomplete_but_started arow
  | none => false

/-- Embeds the complete-row processing of `check_and_process_daily_data`
(lines 559-589): compare the latest complete row's index and hash with the
persisted values, build and send the card when new or changed, and update the
state record only on confirmed delivery. Returns (dispatched alert if any,
resulting state, the function's boolean return). -/
def daily_attempt (data : List (List String)) (deliver : DailyCard → Bool)
    (L : ℕ) (F : Option String) (st : AlertState) :
    Option DailyAlert × AlertState × Bool :=
  match get_latest_complete_row data with
  | none => (none, st, false)
  | some (i, row) =>
    let f := compute_row_hash row
    let is_new : Bool := decide (L < i)
    let is_changed : Bool := decide (i = L) && decide ((some f : Option String) ≠ F)
    if is_new || is_changed then
      match calculate_daily_average row with
      | none => (none, st, false)
      | some avg =>
        let card := format_daily_card (row.head?.getD "Unknown") row avg is_changed
        if deliver card then
          (some ⟨is_changed, i, f, card, true⟩,
           { st with last_processed_row := i, last_row_hash := some f }, true)
        else (some ⟨is_changed, i, f, card, false⟩, st, false)
    else (none, st, false)

/-- Embeds the retry loop of `check_and_process_daily_data` (lines 526-589):
on each attempt, fetch (a raising fetch aborts with state untouched); if a
strictly newer in-progress entry exists, sleep and refetch while attempts
remain, else give up; otherwise process the latest complete row. `fuel` is
the number of loop iterations remaining (`max_retries + 1 - attempt`). -/
def daily_go (fetch : ℕ → Option (List (List String))) (deliver : DailyCard → Bool)
    (L : ℕ) (F : Option String) (st : AlertState) :
    ℕ → ℕ → Option DailyAlert × AlertState × Bool
  | 0, _ => (none, st, false)
  | fuel + 1, attempt =>
    match fetch attempt with
    | none => (none, st, false)
    | some data =>
      if incomplete_new_gate data L then
        if 0 < fuel then daily_go fetch deliver L F st fuel (attempt + 1)
        else (none, st, false)
      else daily_attempt data deliver L F st

/-- Embeds `check_and_process_daily_data` (lines 510-589): the loop runs
`for attempt in range(max_retries + 1)` with the persisted index and hash
read once at entry (lines 523-524). -/
def check_and_process_daily_data (fetch : ℕ → Option (List (List String)))
    (deliver : DailyCard → Bool) (st : AlertState) (max_retries : ℕ) :
    Option DailyAlert × AlertState × Bool :=
  daily_go fetch deliver st.last_processed_row st.last_row_hash st (max_retries + 1) 0

/-- Outcome of the monthly path of `main`: whether a webhook post was
attempted, whether it succeeded, and the resulting state record. -/
structure MonthlyOutcome where
  attempted : Bool
  sent : Bool
  state : AlertState
deriving DecidableEq, Repr

/-- Embeds the monthly branch of `main` (lines 617-646): gated on the local
calendar day being 1 and the persisted month key differing from the current
"YYYY-MM" key; fetch (a raising fetch skips the path), select the previous
month's rows, skip when empty, otherwise aggregate, format and send; the
month key is persisted only on confirmed delivery. -/
def monthly_path (day : ℕ) (current_month_key : String) (prev_year : ℤ)
    (prev_month : ℕ) (prev_month_name : String)
    (fetch : Option (List (List String))) (deliver : MonthlyCard → Bool)
    (st : AlertState) : MonthlyOutcome :=
  if day = 1 ∧ st.last_monthly_alert ≠ some current_month_key then
    match fetch with
    | none => ⟨false, false, st⟩
    | some data =>
      let month_data := get_month_data data prev_year prev_month
      if month_data = [] then ⟨false, false, st⟩
      else
        let averages := calculate_monthly_averages month_data
        let card := format_monthly_card prev_month_name prev_year prev_month
          averages month_data.length
        if deliver card then
          ⟨true, true, { st with last_monthly_alert := some current_month_key }⟩
        else ⟨true, false, st⟩
  else ⟨false, false, st⟩

/-- Embeds the sleep before the next fetch attempt in
`get_sheet_data_with_retry` (lines 100-102): on a rate-limit signal the code
sleeps `min(2**attempt + jitter, 60)` with `jitter = random.uniform(0, 1)`;
the Retry-After header is never consulted on this path. -/
def fetch_retry_delay (attempt : ℕ) (jitter : ℚ) : ℚ :=
  min ((2 : ℚ) ^ attempt + jitter) 60

/-- Embeds the 429/503 sleep of `send_webhook_with_retry` (lines 468-481):
an integer-parsing Retry-After header gives the delay directly, otherwise the
exponential `2**(attempt+1) + jitter` is used; either way capped at 60. -/
def webhook_retry_delay_429 (attempt : ℕ) (retry_after : Option String)
    (jitter : ℚ) : ℚ :=
  let delay : ℚ :=
    match retry_after with
    | some s =>
      if s = "" then (2 : ℚ) ^ (attempt + 1) + jitter
      else match pyInt? s with
        | some n => (n : ℚ)
        | none => (2 : ℚ) ^ (attempt + 1) + jitter
    | none => (2 : ℚ) ^ (attempt + 1) + jitter
  min delay 60

/-- A non-blank cell at position `i` forces the row to have more than `i`
cells (out-of-range access defaults to the blank string). -/
theorem cell_blank_false_lt (row : List String) (i : ℕ)
    (h : cell_blank row i = false) : i < row.length := by
  by_contra hlt
  push_neg at hlt
  have hn : row.get? i = none := List.get?_eq_none.mpr hlt
  have ht : cell_blank row i = true := by
    unfold cell_blank
    rw [hn]
    decide
  rw [h] at ht
  cases ht

/-- Characterization of `is_row_complete`: length at least 24 and all of the
first 24 cells non-blank. -/
theorem is_row_complete_iff (row : List String) :
    is_row_complete row = true ↔
      24 ≤ row.length ∧ ∀ i, i < 24 → cell_blank row i = false := by
  unfold is_row_complete cell_blank
  split
  · next hl =>
    simp only [Bool.false_eq_true, false_iff, not_and]
    intro h24
    omega
  · next hl =>
    rw [List.all_eq_true]
    constructor
    · intro h
      refine ⟨by omega, fun i hi => ?_⟩
      have := h i (List.mem_range.mpr hi)
      simpa using this
    · rintro ⟨h24, h⟩ i hi
      have := h i (List.mem_range.mp hi)
      simpa using this

/-- A Complete row always has a non-blank date cell. -/
theorem complete_has_date (row : List String) (h : is_row_complete row = true) :
    has_date row = true := by
  rcases (is_row_complete_iff row).mp h with ⟨h24, hall⟩
  have h0 := hall 0 (by omega)
  cases row with
  | nil => simp at h24
  | cons c t =>
    have hc : (strip c == "") = false := by simpa [cell_blank] using h0
    simp [has_date, hc]

/-- The backward scan never returns an index above its starting point. -/
theorem scan_back_le (pred : List String → Bool) (data : List (List String)) :
    ∀ n i r, scan_back pred data n = some (i, r) → i ≤ n := by
  intro n
  induction n with
  | zero => intro i r h; simp [scan_back] at h
  | succ m ih =>
    intro i r h
    unfold scan_back at h
    cases hg : data.get? (m + 1) with
    | none =>
      simp only [hg] at h
      exact Nat.le_succ_of_le (ih i r h)
    | some row =>
      simp only [hg] at h
      by_cases hp : pred row = true
      · rw [if_pos hp] at h
        injection h with h2
        injection h2 with h3 h4
        omega
      · rw [if_neg hp] at h
        exact Nat.le_succ_of_le (ih i r h)

/-- A scan with a weaker predicate succeeds at least as late as a scan with a
stronger one. -/
theorem scan_back_mono (p q : List String → Bool)
    (hpq : ∀ r, p r = true → q r = true) (data : List (List String)) :
    ∀ n i r, scan_back p data n = some (i, r) →
      ∃ j r2, scan_back q data n = some (j, r2) ∧ i ≤ j := by
  intro n
  induction n with
  | zero => intro i r h; simp [scan_back] at h
  | succ m ih =>
    intro i r h
    have hle := scan_back_le p data (m + 1) i r h
    unfold scan_back at h ⊢
    cases hg : data.get? (m + 1) with
    | none =>
      simp only [hg] at h ⊢
      exact ih i r h
    | some row =>
      simp only [hg] at h ⊢
      by_cases hq : q row = true
      · exact ⟨m + 1, row, by rw [if_pos hq], hle⟩
      · have hp : ¬p row = true := fun hpr => hq (hpq row hpr)
        rw [if_neg hp] at h
        rw [if_neg hq]
        exact ih i r h

/-- C9: whenever the latest-complete-row scan finds index `i`, the
latest-row-with-date scan finds some index `j ≥ i`, because a Complete row
necessarily has a non-blank date cell and both scans run backward from the
end, skipping the header. -/
theorem C9_latest_dated_bounds_latest_complete (data : List (List String))
    (i : ℕ) (row : List String)
    (h : get_latest_complete_row data = some (i, row)) :
    ∃ j row2, get_latest_row_with_date data = some (j, row2) ∧ i ≤ j := by
  unfold get_latest_complete_row at h
  unfold get_latest_row_with_date
  by_cases hl : data.length ≤ 1
  · rw [if_pos hl] at h
    cases h
  · rw [if_neg hl] at h ⊢
    exact scan_back_mono is_row_complete has_date
      (fun r hr => complete_has_date r hr) data _ i row h

/-- Witness for C9 at a concrete sheet. -/
theorem C9_witness :
    ∃ j row2,
      get_latest_row_with_date [[], List.replicate 24 "x"] = some (j, row2) ∧
        1 ≤ j :=
  C9_latest_dated_bounds_latest_complete [[], List.replicate 24 "x"] 1
    (List.replicate 24 "x") (by decide)

/-- C6: rows shorter than 24 cells are never Complete; a row whose first 24
cells are all non-blank after stripping classifies Complete; and any blank
cell among the first 24 forces non-Complete, namely InProgress when the date
cell is non-blank and Empty when the date cell is blank. -/
theorem C6_classification (row : List String) :
    (row.length < 24 → classify row ≠ RowClass.Complete) ∧
    ((∀ i, i < 24 → cell_blank row i = false) → classify row = RowClass.Complete) ∧
    (∀ k, k < 24 → cell_blank row k = true →
      classify row ≠ RowClass.Complete ∧
      (cell_blank row 0 = false → classify row = RowClass.InProgress) ∧
      (cell_blank row 0 = true → classify row = RowClass.Empty)) := by
  refine ⟨?_, ?_, ?_⟩
  · intro hlen
    have hc : is_row_complete row = false := by
      cases hcc : is_row_complete row
      · rfl
      · rcases (is_row_complete_iff row).mp hcc with ⟨h24, -⟩
        omega
    simp only [classify, hc, Bool.false_eq_true, if_false]
    split <;> simp
  · intro hall
    have h23 := cell_blank_false_lt row 23 (hall 23 (by omega))
    have hc : is_row_complete row = true :=
      (is_row_complete_iff row).mpr ⟨by omega, hall⟩
    simp only [classify, hc, if_true]
  · intro k hk hblank
    have hc : is_row_complete row = false := by
      cases hcc : is_row_complete row
      · rfl
      · rcases (is_row_complete_iff row).mp hcc with ⟨-, hall⟩
        rw [hall k hk] at hblank
        cases hblank
    refine ⟨?_, ?_, ?_⟩
    · simp only [classify, hc, Bool.false_eq_true, if_false]
      split <;> simp
    · intro h0
      have hlt := cell_blank_false_lt row 0 h0
      cases row with
      | nil => simp at hlt
      | cons c t =>
        have hct : (strip c == "") = false := by simpa [cell_blank] using h0
        have hst : is_row_incomplete_but_started (c :: t) = true := by
          simp only [is_row_incomplete_but_started]
          rw [hct]
          simp [hc]
        simp [classify, hc, hst]
    · intro h0
      have hst : is_row_incomplete_but_started row = false := by
        cases row with
        | nil => rfl
        | cons c t =>
          have hct : (strip c == "") = true := by simpa [cell_blank] using h0
          simp only [is_row_incomplete_but_started]
          rw [hct]
          simp
      simp [classify, hc, hst]

/-- Witness for C6 at a concrete row of 24 non-blank cells. -/
theorem C6_witness : classify (List.replicate 24 "x") = RowClass.Complete :=
  (C6_classification (List.replicate 24 "x")).2.1 (by decide)

/-- C7: the daily average is absent exactly when no category cell parses as a
price, and when present it is the arithmetic mean of precisely the parsed
prices (unparseable cells contribute nothing, and the division is guarded by
the emptiness test). -/
theorem C7_daily_average (row : List String) :
    (calculate_daily_average row = none ↔
      ∀ i, 1 ≤ i → i < min row.length 24 →
        parse_price ((row.get? i).getD "") = none) ∧
    ∀ a, calculate_daily_average row = some a →
      parsedPrices row ≠ [] ∧
      a * ((parsedPrices row).length : ℚ) = (parsedPrices row).sum := by
  constructor
  · by_cases hp : parsedPrices row = []
    · rw [calculate_daily_average, if_pos hp]
      simp only [true_iff]
      intro i h1 h2
      refine (List.filterMap_eq_nil_iff.mp hp) i ?_
      rw [List.mem_range'_1]
      omega
    · rw [calculate_daily_average, if_neg hp]
      simp only [reduceCtorEq, false_iff, not_forall]
      rcases List.exists_mem_of_ne_nil _ hp with ⟨b, hb⟩
      rcases List.mem_filterMap.mp hb with ⟨i, hi, hparse⟩
      rw [List.mem_range'_1] at hi
      exact ⟨i, by omega, by omega, by rw [hparse]; simp⟩
  · intro a h
    by_cases hp : parsedPrices row = []
    · rw [calculate_daily_average, if_pos hp] at h
      cases h
    · rw [calculate_daily_average, if_neg hp] at h
      injection h with h2
      have hlen : ((parsedPrices row).length : ℚ) ≠ 0 := by
        have hz : (parsedPrices row).length ≠ 0 :=
          fun hzz => hp (List.length_eq_zero.mp hzz)
        exact Nat.cast_ne_zero.mpr hz
      exact ⟨hp, by rw [← h2]; exact div_mul_cancel₀ _ hlen⟩

/-- Witness for C7 at a concrete row with two parseable prices. -/
theorem C7_witness :
    parsedPrices ["d", "10", "20"] ≠ [] ∧
      (15 : ℚ) * ((parsedPrices ["d", "10", "20"]).length : ℚ) =
        (parsedPrices ["d", "10", "20"]).sum :=
  (C7_daily_average ["d", "10", "20"]).2 15 (by decide)

/-- Unfolding equation for one iteration of the daily retry loop. -/
theorem daily_go_succ (fetch : ℕ → Option (List (List String)))
    (deliver : DailyCard → Bool) (L : ℕ) (F : Option String) (st : AlertState)
    (fuel attempt : ℕ) :
    daily_go fetch deliver L F st (fuel + 1) attempt =
      match fetch attempt with
      | none => (none, st, false)
      | some data =>
        if incomplete_new_gate data L then
          if 0 < fuel then daily_go fetch deliver L F st fuel (attempt + 1)
          else (none, st, false)
        else daily_attempt data deliver L F st := rfl

/-- Case analysis of a single complete-row processing step: either nothing is
delivered and the state and return flag are untouched, or exactly one alert
is delivered and the state advances to that alert's index and hash. -/
theorem daily_attempt_spec (data : List (List String)) (deliver : DailyCard → Bool)
    (L : ℕ) (F : Option String) (st : AlertState) :
    ((daily_attempt data deliver L F st).2.1 = st ∧
      (daily_attempt data deliver L F st).2.2 = false ∧
      ∀ a, (daily_attempt data deliver L F st).1 = some a → a.delivered = false) ∨
    (∃ a, (daily_attempt data deliver L F st).1 = some a ∧ a.delivered = true ∧
      L ≤ a.index ∧ (daily_attempt data deliver L F st).2.2 = true ∧
      (daily_attempt data deliver L F st).2.1 =
        { last_processed_row := a.index, last_row_hash := some a.hash,
          last_monthly_alert := st.last_monthly_alert }) := by
  unfold daily_attempt
  cases hlc : get_latest_complete_row data with
  | none => exact Or.inl ⟨rfl, rfl, fun a h => by cases h⟩
  | some pr =>
    obtain ⟨i, row⟩ := pr
    simp only
    by_cases hcond : (decide (L < i) ||
        (decide (i = L) && decide ((some (compute_row_hash row) : Option String) ≠ F))) = true
    · rw [if_pos hcond]
      cases havg : calculate_daily_average row with
      | none => exact Or.inl ⟨rfl, rfl, fun a h => by cases h⟩
      | some avg =>
        simp only
        have hLi : L ≤ i := by
          simp only [Bool.or_eq_true, Bool.and_eq_true, decide_eq_true_eq] at hcond
          rcases hcond with h1 | ⟨h1, -⟩ <;> omega
        by_cases hdel : deliver (format_daily_card (row.head?.getD "Unknown") row avg
            (decide (i = L) && decide ((some (compute_row_hash row) : Option String) ≠ F))) = true
        · rw [if_pos hdel]
          exact Or.inr ⟨_, rfl, rfl, hLi, rfl, rfl⟩
        · rw [if_neg hdel]
          refine Or.inl ⟨rfl, rfl, fun a h => ?_⟩
          injection h with h2
          rw [← h2]
    · rw [if_neg hcond]
      exact Or.inl ⟨rfl, rfl, fun a h => by cases h⟩

/-- Case analysis of the whole daily retry loop, by induction on the
remaining iterations: same dichotomy as a single step. -/
theorem daily_go_spec (fetch : ℕ → Option (List (List String)))
    (deliver : DailyCard → Bool) (L : ℕ) (F : Option String) (st : AlertState) :
    ∀ fuel attempt,
      ((daily_go fetch deliver L F st fuel attempt).2.1 = st ∧
        (daily_go fetch deliver L F st fuel attempt).2.2 = false ∧
        ∀ a, (daily_go fetch deliver L F st fuel attempt).1 = some a →
          a.delivered = false) ∨
      (∃ a, (daily_go fetch deliver L F st fuel attempt).1 = some a ∧
        a.delivered = true ∧ L ≤ a.index ∧
        (daily_go fetch deliver L F st fuel attempt).2.2 = true ∧
        (daily_go fetch deliver L F st fuel attempt).2.1 =
          { last_processed_row := a.index, last_row_hash := some a.hash,
            last_monthly_alert := st.last_monthly_alert }) := by
  intro fuel
  induction fuel with
  | zero =>
    intro attempt
    exact Or.inl ⟨rfl, rfl, fun a h => by cases h⟩
  | succ n ih =>
    intro attempt
    rw [daily_go_succ]
    cases hf : fetch attempt with
    | none => exact Or.inl ⟨rfl, rfl, fun a h => by cases h⟩
    | some data =>
      simp only
      by_cases hg : incomplete_new_gate data L = true
      · rw [if_pos hg]
        by_cases hn : 0 < n
        · rw [if_pos hn]
          exact ih (attempt + 1)
        · rw [if_neg hn]
          exact Or.inl ⟨rfl, rfl, fun a h => by cases h⟩
      · rw [if_neg hg]
        exact daily_attempt_spec data deliver L F st

/-- C2: across a daily invocation the persisted index and fingerprint move if
and only if a delivery succeeds: on any failure (fetch error, in-progress
give-up, nothing new, absent average, or failed delivery including exhausted
retries) the state record is returned completely unchanged; on a confirmed
delivery both fields are set together to the alerted row's index and
fingerprint, never one without the other. -/
theorem C2_state_updated_iff_delivered (fetch : ℕ → Option (List (List String)))
    (deliver : DailyCard → Bool) (st : AlertState) (mr : ℕ) :
    ((check_and_process_daily_data fetch deliver st mr).2.1 = st ∧
      ∀ a, (check_and_process_daily_data fetch deliver st mr).1 = some a →
        a.delivered = false) ∨
    (∃ a, (check_and_process_daily_data fetch deliver st mr).1 = some a ∧
      a.delivered = true ∧
      (check_and_process_daily_data fetch deliver st mr).2.1 =
        { last_processed_row := a.index, last_row_hash := some a.hash,
          last_monthly_alert := st.last_monthly_alert }) := by
  unfold check_and_process_daily_data
  rcases daily_go_spec fetch deliver st.last_processed_row st.last_row_hash st
      (mr + 1) 0 with ⟨h1, h2, h3⟩ | ⟨a, h1, h2, h3, h4, h5⟩
  · exact Or.inl ⟨h1, h3⟩
  · exact Or.inr ⟨a, h1, h2, h5⟩

/-- Witness for C2: a failing fetch leaves the default state unchanged. -/
theorem C2_witness :
    (check_and_process_daily_data (fun _ => none) (fun _ => true)
      ⟨0, none, none⟩ 3).2.1 = ⟨0, none, none⟩ := by
  rcases C2_state_updated_iff_delivered (fun _ => none) (fun _ => true)
      ⟨0, none, none⟩ 3 with h | ⟨a, ha, -, -⟩
  · exact h.1
  · have hnone : (check_and_process_daily_data
        (fun _ : ℕ => (none : Option (List (List String)))) (fun _ => true)
        ⟨0, none, none⟩ 3).1 = none := by decide
    rw [hnone] at ha
    cases ha

/-- C5: whenever the daily path reports a successful run (confirmed delivery
and state update), the persisted row index does not decrease. -/
theorem C5_index_monotone (fetch : ℕ → Option (List (List String)))
    (deliver : DailyCard → Bool) (st : AlertState) (mr : ℕ)
    (h : (check_and_process_daily_data fetch deliver st mr).2.2 = true) :
    st.last_processed_row ≤
      (check_and_process_daily_data fetch deliver st mr).2.1.last_processed_row := by
  unfold check_and_process_daily_data at h ⊢
  rcases daily_go_spec fetch deliver st.last_processed_row st.last_row_hash st
      (mr + 1) 0 with ⟨h1, h2, h3⟩ | ⟨a, h1, h2, h3, h4, h5⟩
  · rw [h2] at h
    cases h
  · rw [h5]
    exact h3

/-- Witness for C5: a successful run over a concrete sheet advances the
persisted index from 1 to 2. -/
theorem C5_witness :
    (1 : ℕ) ≤ (check_and_process_daily_data
      (fun _ => some [List.replicate 24 "h",
        "1-Jan-2025" :: List.replicate 23 "100",
        "2-Jan-2025" :: List.replicate 23 "100"])
      (fun _ => true) ⟨1, none, none⟩ 3).2.1.last_processed_row :=
  C5_index_monotone
    (fun _ => some [List.replicate 24 "h",
      "1-Jan-2025" :: List.replicate 23 "100",
      "2-Jan-2025" :: List.replicate 23 "100"])
    (fun _ => true) ⟨1, none, none⟩ 3 (by decide)

/-- C10: when the latest Complete row is New or Corrected but none of its
category cells parses as a price, the daily path dispatches no alert, leaves
the persisted state untouched and reports no update, so the same row is
re-examined on every later run (stable data across the in-run refetches). -/
theorem C10_unparseable_row_silent (data : List (List String))
    (deliver : DailyCard → Bool) (st : AlertState) (mr : ℕ) (i : ℕ)
    (row : List String)
    (h1 : get_latest_complete_row data = some (i, row))
    (h2 : st.last_processed_row < i ∨
      (i = st.last_processed_row ∧
        (some (compute_row_hash row) : Option String) ≠ st.last_row_hash))
    (h3 : calculate_daily_average row = none) :
    check_and_process_daily_data (fun _ => some data) deliver st mr =
      (none, st, false) := by
  have hcond : (decide (st.last_processed_row < i) ||
      (decide (i = st.last_processed_row) &&
        decide ((some (compute_row_hash row) : Option String) ≠ st.last_row_hash))) = true := by
    simp only [Bool.or_eq_true, Bool.and_eq_true, decide_eq_true_eq]
    tauto
  have hatt : daily_attempt data deliver st.last_processed_row st.last_row_hash st =
      (none, st, false) := by
    unfold daily_attempt
    rw [h1]
    simp only
    rw [if_pos hcond, h3]
  have key : ∀ fuel attempt,
      daily_go (fun _ => some data) deliver st.last_processed_row
        st.last_row_hash st fuel attempt = (none, st, false) := by
    intro fuel
    induction fuel with
    | zero => intro attempt; rfl
    | succ n ihn =>
      intro attempt
      rw [daily_go_succ]
      simp only
      by_cases hg : incomplete_new_gate data st.last_processed_row = true
      · rw [if_pos hg]
        by_cases hn : 0 < n
        · rw [if_pos hn]
          exact ihn (attempt + 1)
        · rw [if_neg hn]
      · rw [if_neg hg]
        exact hatt
  exact key (mr + 1) 0

/-- Witness for C10 at a concrete sheet whose complete row has no parseable
price cell. -/
theorem C10_witness :
    check_and_process_daily_data
      (fun _ => some [List.replicate 24 "h", "d" :: List.replicate 23 "z"])
      (fun _ => true) ⟨0, none, none⟩ 3 =
      (none, ⟨0, none, none⟩, false) :=
  C10_unparseable_row_silent
    [List.replicate 24 "h", "d" :: List.replicate 23 "z"]
    (fun _ => true) ⟨0, none, none⟩ 3 1 ("d" :: List.replicate 23 "z")
    (by decide) (Or.inl (by decide)) (by decide)

/-- C1 (counterexample): the claim as stated fails. Here a latest Complete
row is found at index 1 with the persisted index 0 (so `i > L`), yet no
"new entry" alert is sent: every category cell of the row is non-blank but
unparseable, the daily average is absent, and the code dispatches nothing
(lines 573-583 guard the send on `daily_avg is not None`). -/
theorem C1_counterexample :
    get_latest_complete_row
        [List.replicate 24 "h", "d" :: List.replicate 23 "z"] =
      some (1, "d" :: List.replicate 23 "z") ∧
    (⟨0, none, none⟩ : AlertState).last_processed_row < 1 ∧
    (check_and_process_daily_data
      (fun _ => some [List.replicate 24 "h", "d" :: List.replicate 23 "z"])
      (fun _ => true) ⟨0, none, none⟩ 3).1 = none := by
  refine ⟨by decide, by decide, by decide⟩

/-- When the in-progress gate is off, one invocation over stable data reduces
to the single complete-row processing step. -/
theorem check_daily_stable_eq (data : List (List String))
    (deliver : DailyCard → Bool) (st : AlertState) (mr : ℕ)
    (hgate : incomplete_new_gate data st.last_processed_row = false) :
    check_and_process_daily_data (fun _ => some data) deliver st mr =
      daily_attempt data deliver st.last_processed_row st.last_row_hash st := by
  unfold check_and_process_daily_data
  rw [daily_go_succ]
  simp only
  rw [hgate]
  simp only [Bool.false_eq_true, if_false]

/-- The alert dispatched by the complete-row step, fully characterized when
the latest complete row and its average are known. -/
theorem daily_attempt_alert_eq (data : List (List String))
    (deliver : DailyCard → Bool) (L : ℕ) (F : Option String) (st : AlertState)
    (i : ℕ) (row : List String) (v : ℚ)
    (hlc : get_latest_complete_row data = some (i, row))
    (havg : calculate_daily_average row = some v) :
    (daily_attempt data deliver L F st).1 =
      (if decide (L < i) ||
          (decide (i = L) && decide ((some (compute_row_hash row) : Option String) ≠ F)) then
        some ⟨decide (i = L) && decide ((some (compute_row_hash row) : Option String) ≠ F),
          i, compute_row_hash row,
          format_daily_card (row.head?.getD "Unknown") row v
            (decide (i = L) && decide ((some (compute_row_hash row) : Option String) ≠ F)),
          deliver (format_daily_card (row.head?.getD "Unknown") row v
            (decide (i = L) && decide ((some (compute_row_hash row) : Option String) ≠ F)))⟩
      else none) := by
  unfold daily_attempt
  rw [hlc]
  simp only
  by_cases hcond : (decide (L < i) ||
      (decide (i = L) && decide ((some (compute_row_hash row) : Option String) ≠ F))) = true
  · rw [if_pos hcond, havg, if_pos hcond]
    simp only
    by_cases hdel : deliver (format_daily_card (row.head?.getD "Unknown") row v
        (decide (i = L) && decide ((some (compute_row_hash row) : Option String) ≠ F))) = true
    · rw [if_pos hdel, hdel]
    · rw [if_neg hdel]
      have hdf : deliver (format_daily_card (row.head?.getD "Unknown") row v
          (decide (i = L) && decide ((some (compute_row_hash row) : Option String) ≠ F))) = false :=
        Bool.eq_false_iff.mpr hdel
      rw [hdf]
  · rw [if_neg hcond, if_neg hcond]

/-- C1 (amended): for an invocation over stable fetched data where the
latest Complete row sits at index `i` with fingerprint `f`, the in-progress
gate does not fire, and the row's daily average is present, the decision
matches the claim exactly: a new-entry alert is dispatched iff `i > L`, a
corrected-entry alert iff `i = L` and `f ≠ F`, and nothing is dispatched
when `i = L ∧ f = F` or `i < L`. (When the daily average is absent no alert
is dispatched at all, even for `i > L` — the correction the counterexample
forces.) -/
theorem C1_daily_decision (data : List (List String))
    (deliver : DailyCard → Bool) (st : AlertState) (mr : ℕ) (i : ℕ)
    (row : List String) (v : ℚ)
    (hlc : get_latest_complete_row data = some (i, row))
    (hgate : incomplete_new_gate data st.last_processed_row = false)
    (havg : calculate_daily_average row = some v) :
    ((∃ a, (check_and_process_daily_data (fun _ => some data) deliver st mr).1 =
        some a ∧ a.is_update = false ∧ a.index = i) ↔
      st.last_processed_row < i) ∧
    ((∃ a, (check_and_process_daily_data (fun _ => some data) deliver st mr).1 =
        some a ∧ a.is_update = true ∧ a.index = i) ↔
      (i = st.last_processed_row ∧
        (some (compute_row_hash row) : Option String) ≠ st.last_row_hash)) ∧
    ((check_and_process_daily_data (fun _ => some data) deliver st mr).1 = none ↔
      (i < st.last_processed_row ∨
        (i = st.last_processed_row ∧
          (some (compute_row_hash row) : Option String) = st.last_row_hash))) := by
  rw [check_daily_stable_eq data deliver st mr hgate,
    daily_attempt_alert_eq data deliver st.last_processed_row st.last_row_hash
      st i row v hlc havg]
  rcases Nat.lt_trichotomy st.last_processed_row i with hlt | heq | hgt
  · have hne : ¬(i = st.last_processed_row) := by omega
    simp [hlt, hne]
    omega
  · by_cases hF : (some (compute_row_hash row) : Option String) = st.last_row_hash
    · have h1 : ¬(st.last_processed_row < i) := by omega
      simp [h1, ← heq, hF]
    · have h1 : ¬(st.last_processed_row < i) := by omega
      simp [h1, ← heq, hF]
      try omega
  · have hne : ¬(i = st.last_processed_row) := by omega
    have h1 : ¬(st.last_processed_row < i) := by omega
    simp [h1, hne]
    try omega

/-- Witness for the amended C1: a concrete new complete row at index 1 with
persisted index 0 dispatches a new-entry alert. -/
theorem C1_witness :
    ∃ a, (check_and_process_daily_data
      (fun _ => some [List.replicate 24 "h", "1-Jan-2025" :: List.replicate 23 "100"])
      (fun _ => true) ⟨0, none, none⟩ 3).1 = some a ∧
      a.is_update = false ∧ a.index = 1 :=
  ((C1_daily_decision
    [List.replicate 24 "h", "1-Jan-2025" :: List.replicate 23 "100"]
    (fun _ => true) ⟨0, none, none⟩ 3 1 ("1-Jan-2025" :: List.replicate 23 "100")
    100 (by decide) (by decide) (by decide)).1).mpr (by decide)

/-- Case analysis of the monthly branch: either nothing was sent and the
state is unchanged, or the gate held and the outcome is a delivered alert
with the month key persisted. -/
theorem monthly_path_cases (day : ℕ) (key : String) (py : ℤ) (pm : ℕ)
    (pmn : String) (fetch : Option (List (List String)))
    (deliver : MonthlyCard → Bool) (st : AlertState) :
    ((monthly_path day key py pm pmn fetch deliver st).sent = false ∧
      (monthly_path day key py pm pmn fetch deliver st).state = st) ∨
    (day = 1 ∧ st.last_monthly_alert ≠ some key ∧
      monthly_path day key py pm pmn fetch deliver st =
        ⟨true, true, { st with last_monthly_alert := some key }⟩) := by
  unfold monthly_path
  by_cases hgate : day = 1 ∧ st.last_monthly_alert ≠ some key
  · rw [if_pos hgate]
    cases fetch with
    | none => exact Or.inl ⟨rfl, rfl⟩
    | some data =>
      simp only
      by_cases hmd : get_month_data data py pm = []
      · rw [if_pos hmd]
        exact Or.inl ⟨rfl, rfl⟩
      · rw [if_neg hmd]
        by_cases hdel : deliver (format_monthly_card pmn py pm
            (calculate_monthly_averages (get_month_data data py pm))
            (get_month_data data py pm).length) = true
        · rw [if_pos hdel]
          exact Or.inr ⟨hgate.1, hgate.2, rfl⟩
        · rw [if_neg hdel]
          exact Or.inl ⟨rfl, rfl⟩
  · rw [if_neg hgate]
    exact Or.inl ⟨rfl, rfl⟩

/-- C3: a monthly alert goes out only when the local calendar day is 1 and
the persisted month key differs from the current one; on any other day the
monthly branch does not even attempt a post; and two invocations on the 1st
starting from the same persisted key deliver at most one monthly alert (if
the first delivered, the second is gated off by the persisted key). -/
theorem C3_monthly_gate (day : ℕ) (key : String) (py : ℤ) (pm : ℕ)
    (pmn : String) (fetch : Option (List (List String)))
    (deliver : MonthlyCard → Bool) (st : AlertState) :
    ((monthly_path day key py pm pmn fetch deliver st).sent = true →
      day = 1 ∧ st.last_monthly_alert ≠ some key) ∧
    (day ≠ 1 →
      monthly_path day key py pm pmn fetch deliver st = ⟨false, false, st⟩) ∧
    (∀ fetch2 deliver2,
      (monthly_path 1 key py pm pmn fetch deliver st).sent = true →
      (monthly_path 1 key py pm pmn fetch2 deliver2
        (monthly_path 1 key py pm pmn fetch deliver st).state).sent = false) := by
  refine ⟨?_, ?_, ?_⟩
  · intro hsent
    rcases monthly_path_cases day key py pm pmn fetch deliver st with h | ⟨hd, hne, -⟩
    · rw [h.1] at hsent
      cases hsent
    · exact ⟨hd, hne⟩
  · intro hday
    unfold monthly_path
    rw [if_neg]
    rintro ⟨hd, -⟩
    exact hday hd
  · intro fetch2 deliver2 hsent
    rcases monthly_path_cases 1 key py pm pmn fetch deliver st with h | ⟨-, -, heq⟩
    · rw [h.1] at hsent
      cases hsent
    · rw [heq]
      show (monthly_path 1 key py pm pmn fetch2 deliver2
        { st with last_monthly_alert := some key }).sent = false
      unfold monthly_path
      rw [if_neg]
      rintro ⟨-, hne⟩
      exact hne rfl

/-- Witness for C3: a day-2 invocation attempts and sends nothing. -/
theorem C3_witness :
    monthly_path 2 "2025-02" 2025 1 "January" none (fun _ => true)
      ⟨0, none, none⟩ = ⟨false, false, ⟨0, none, none⟩⟩ :=
  (C3_monthly_gate 2 "2025-02" 2025 1 "January" none (fun _ => true)
    ⟨0, none, none⟩).2.1 (by decide)

/-- C4 (counterexample): the claim as stated fails on the fetch path. The
sleep computed by `get_sheet_data_with_retry` never consults Retry-After and
on the first retry equals `2^0 + jitter` with `jitter ∈ [0, 1)`: with a
Retry-After hint of 2 and jitter 1/2 the wait is 3/2 < 2 time units. -/
theorem C4_counterexample :
    (0 : ℚ) ≤ 1/2 ∧ (1/2 : ℚ) < 1 ∧ fetch_retry_delay 0 (1/2) < 2 :=
  ⟨by norm_num, by norm_num, by decide⟩

/-- C4 (amended): it is the webhook delivery path whose 429 handling honors
an explicit integer Retry-After hint — with `Retry-After: 2` it waits exactly
2 (≥ 2) time units instead of the computed exponential backoff — while the
sheet-fetch path ignores the header entirely, waiting `min(2^attempt +
jitter, 60)`, which on the first retry is below 2. -/
theorem C4_retry_after_paths (attempt : ℕ) (jitter : ℚ)
    (h0 : 0 ≤ jitter) (h1 : jitter < 1) :
    webhook_retry_delay_429 attempt (some "2") jitter = 2 ∧
    (2 : ℚ) ≤ webhook_retry_delay_429 attempt (some "2") jitter ∧
    fetch_retry_delay 0 jitter < 2 := by
  have hp2 : pyInt? "2" = some 2 := by decide
  have hw : webhook_retry_delay_429 attempt (some "2") jitter = 2 := by
    unfold webhook_retry_delay_429
    simp only [hp2]
    rw [if_neg (by decide : ¬("2" : String) = "")]
    norm_num
  refine ⟨hw, le_of_eq hw.symm, ?_⟩
  unfold fetch_retry_delay
  calc min ((2 : ℚ) ^ 0 + jitter) 60 ≤ (2 : ℚ) ^ 0 + jitter := min_le_left _ _
    _ < 2 := by rw [pow_zero]; linarith

/-- Witness for the amended C4 at jitter 1/2. -/
theorem C4_witness :
    webhook_retry_delay_429 0 (some "2") (1/2) = 2 ∧
    (2 : ℚ) ≤ webhook_retry_delay_429 0 (some "2") (1/2) ∧
    fetch_retry_delay 0 (1/2) < 2 :=
  C4_retry_after_paths 0 (1/2) (by norm_num) (by norm_num)

/-- C8 (counterexample): the claim as stated fails. A supplier whose prices
all parse to 0 is present in the month aggregate mapping with average 0, yet
its widget shows "N/A" (line 367 uses Python truthiness `if avg`), even
though formatting 0 would print "0". -/
theorem C8_counterexample :
    (calculate_monthly_averages
        ["5-Jan-2025" :: List.replicate 23 "0"]).lookup "AGRITED" = some 0 ∧
    (format_monthly_card "January" 2025 1
        (calculate_monthly_averages ["5-Jan-2025" :: List.replicate 23 "0"])
        1).supplierWidgets.head? = some ⟨"AGRITED", "N/A"⟩ ∧
    pyFormatFloat0 (0 : ℚ) = "0" :=
  ⟨by decide, by decide, by decide⟩

/-- C8 (amended): in the monthly payload, the widget of the k-th supplier
shows the formatted average exactly when the supplier is present in the
mapping with a nonzero average, and "N/A" exactly when the supplier is
absent from the mapping or its average equals zero. -/
theorem C8_monthly_na_rendering (averages : List (String × ℚ)) (mn : String)
    (y : ℤ) (m : ℕ) (d : ℕ) (k : ℕ) (s : String)
    (hk : SUPPLIERS.get? k = some s) :
    (format_monthly_card mn y m averages d).supplierWidgets.get? k =
      some ⟨s, match averages.lookup s with
        | some a => if a = 0 then "N/A" else pyFormatFloat0 a
        | none => "N/A"⟩ := by
  unfold format_monthly_card
  simp only [List.get?_map, hk, Option.map_some']

/-- Witness for the amended C8: supplier 0 present with average 5 renders
the formatted value. -/
theorem C8_witness :
    (format_monthly_card "January" 2025 1 [("AGRITED", (5 : ℚ))]
      3).supplierWidgets.get? 0 = some ⟨"AGRITED", "5"⟩ := by
  rw [C8_monthly_na_rendering [("AGRITED", (5 : ℚ))] "January" 2025 1 3 0
    "AGRITED" (by decide)]
  decide
